import Mathlib

/-!
Shallow embedding of `src/jquery.flot.compareseries.js` (Flot plugin
"compareseries", version 1.0).

The plugin hooks `processRawData`: for each series with comparison enabled it
splits the series' points into an "above" and a "below" series, measured
against a reference series, hides the original, and appends the two derived
series to the plot's series list.

Modelling conventions:
* a Flot data point `[x, y]` is a pair of integers (the plugin only compares
  numbers with `>=`, so any linearly ordered numeric carrier is faithful);
* a JavaScript object used as a lookup (`flattenData`'s result) is a function
  `Int → Option Int` built by successive overwriting assignments, so the
  last assignment to a key wins, exactly as in the source;
* the plot's series list (`plot.getData()`) is a `List Series`; the in-place
  mutations of the hook (hiding the subject, pushing the two derived series)
  become the returned list;
* the module-level counter `currentSeries`, incremented once per invocation,
  always equals the subject's position in the series list, so the hook is
  modelled as a function of the list and that position;
* reference-vs-value semantics of the style-flag groups (`$.extend` makes a
  fresh object per group) is modelled separately with an explicit store, see
  `Heap` below.
-/

namespace Flot

/-- A Flot data point: `(horizontal coordinate, vertical coordinate)`. -/
abbrev Point := Int × Int

/-- The `series.bars` style-flag group (only the flags the plugin reads). -/
structure BarsOptions where
  showFlag : Bool
  horizontal : Bool
deriving DecidableEq

/-- The `series.lines` style-flag group. -/
structure LinesOptions where
  showFlag : Bool
deriving DecidableEq

/-- The `series.points` style-flag group. -/
structure PointsOptions where
  showFlag : Bool
deriving DecidableEq

/-- The `series.compare` options object.  The plugin's defaults are
`{enabled: false, seriesIndex: 0, colorAbove: '#FF0000', colorBelow: '#00FF00'}`.
`copySeries` replaces the whole object by `{enabled: false}`; the other
fields of that replacement are never read (the `enabled` check short-circuits
first), so they carry the default values here. -/
structure CompareConfig where
  enabled : Bool
  seriesIndex : Nat := 0
  colorAbove : String := "#FF0000"
  colorBelow : String := "#00FF00"
deriving DecidableEq

/-- The `datapoints` object handed to the `processRawData` hook: raw points
plus point-format metadata (`pointsize`, `format`). -/
structure Datapoints where
  points : List Int
  pointsize : Nat
  format : Option String
deriving DecidableEq

/-- The value fields of a series (everything the plugin touches except the
`originSeries` back-reference, which needs recursion and lives in `Series`). -/
structure SeriesCore where
  data : List Point
  bars : BarsOptions
  lines : LinesOptions
  points : PointsOptions
  label : Option String
  color : String
  compare : CompareConfig
  datapoints : Datapoints

/-- A Flot series.  `copySeries` stores the originating series itself in
`copy.originSeries`, so the type is recursive through `Option`. -/
inductive Series : Type where
  | mk (core : SeriesCore) (originSeries : Option Series) : Series

/-- The value fields of a series. -/
def Series.core : Series → SeriesCore
  | .mk c _ => c

/-- The `originSeries` back-reference set by `copySeries` (absent on series
that did not come out of a split). -/
def Series.originSeries : Series → Option Series
  | .mk _ o => o

/-- Accessor `series.data`. -/
abbrev Series.data (s : Series) : List Point := s.core.data

/-- Accessor `series.bars`. -/
abbrev Series.bars (s : Series) : BarsOptions := s.core.bars

/-- Accessor `series.lines`. -/
abbrev Series.lines (s : Series) : LinesOptions := s.core.lines

/-- Accessor `series.points`. -/
abbrev Series.points (s : Series) : PointsOptions := s.core.points

/-- Accessor `series.label`. -/
abbrev Series.label (s : Series) : Option String := s.core.label

/-- Accessor `series.color`. -/
abbrev Series.color (s : Series) : String := s.core.color

/-- Accessor `series.compare`. -/
abbrev Series.compare (s : Series) : CompareConfig := s.core.compare

/-- Accessor `series.datapoints`. -/
abbrev Series.datapoints (s : Series) : Datapoints := s.core.datapoints

/-- Replace a series' `data` (models the loop pushing into `copy.data`). -/
def Series.setData : Series → List Point → Series
  | .mk c o, d => .mk { c with data := d } o

/-- `getSeries(plot, i)` (source lines 58-67): return the series at index `i`
of `plot.getData()` if it exists, `false` otherwise (modelled as `Option`). -/
def getSeries (allSeries : List Series) (i : Nat) : Option Series :=
  allSeries[i]?

/-- Key of a data point, adjusted for orientation (source lines 85-89 and
188-197): the first coordinate when vertical, the second when horizontal. -/
def pointKey (isVertical : Bool) (data : Point) : Int :=
  if isVertical then data.1 else data.2

/-- Value of a data point, adjusted for orientation: the second coordinate
when vertical, the first when horizontal. -/
def pointValue (isVertical : Bool) (data : Point) : Int :=
  if isVertical then data.2 else data.1

/-- `flattenData(data, isVertical)` (source lines 77-93): flatten a list of
points into a key-value lookup object.  Each iteration executes
`flat[key] = value`, overwriting any earlier binding of the same key, so the
last occurrence of a key wins.  The JavaScript object is modelled as the
function `Int → Option Int` it represents. -/
def flattenData (data : List Point) (isVertical : Bool) : Int → Option Int :=
  data.foldl
    (fun flat p => fun k =>
      if k = pointKey isVertical p then some (pointValue isVertical p) else flat k)
    (fun _ => none)

/-- `copySeries(series, datapoints, color)` (source lines 103-126): shallow
copy of the series (`$.extend({}, series)`), then: empty `data`, fresh
`datapoints` keeping `pointsize`/`format`, `label` cleared, the three
style-flag groups copied (`$.extend({}, series.bars)` and friends — valuewise
the same flags; the freshness of those objects is modelled by
`copySeriesRefs` below), the given `color`, `originSeries` pointing at the
source series, and `compare` replaced by `{enabled: false}`. -/
def copySeries (series : Series) (datapoints : Datapoints) (color : String) : Series :=
  .mk
    { series.core with
      data := []
      datapoints :=
        { points := [], pointsize := datapoints.pointsize, format := datapoints.format }
      label := none
      bars := series.core.bars
      lines := series.core.lines
      points := series.core.points
      color := color
      compare := { enabled := false } }
    (some series)

/-- Source lines 180-182: `series.bars.show = false; series.lines.show =
false; series.points.show = false` — hide the original series. -/
def hideSeries : Series → Series
  | .mk c o =>
    .mk
      { c with
        bars := { c.bars with showFlag := false }
        lines := { c.lines with showFlag := false }
        points := { c.points with showFlag := false } }
      o

/-- The classification condition of source line 200:
`value >= compareData[key] || !compareData.hasOwnProperty(key)`.
When `key` is absent, `compareData[key]` is `undefined` and the `>=`
comparison is false, so the point is caught by the second disjunct. -/
def classifyAbove (compareData : Int → Option Int) (key value : Int) : Bool :=
  (match compareData key with
   | some c => decide (value ≥ c)
   | none => false)
  || (compareData key).isNone

/-- The `$.each` loop of source lines 185-205: walk the subject's data in
order and push each point to the `above` or `below` data array. -/
def classifyData (subjectData : List Point) (compareData : Int → Option Int)
    (isVertical : Bool) : List Point × List Point :=
  subjectData.foldl
    (fun acc data =>
      if classifyAbove compareData (pointKey isVertical data) (pointValue isVertical data)
      then (acc.1 ++ [data], acc.2)
      else (acc.1, acc.2 ++ [data]))
    ([], [])

/-- Source lines 152 and 168-170: orientation is vertical by default, and
horizontal exactly when the subject is a horizontal bar chart
(`series.bars.show && series.bars.horizontal`). -/
def subjectIsVertical (series : Series) : Bool :=
  !(series.bars.showFlag && series.bars.horizontal)

/-- `compareSeries(plot, series, data, datapoints)` (source lines 147-210),
as a function of the plot's series list and the subject's position
(`currentSeries` after the line-155 increment equals that position, since the
hook fires once per series in order).  Returns the series list after the
hook: unchanged when comparison is disabled, the series compares to itself,
or the reference index resolves to no series; otherwise the subject is
hidden in place and the `above` and `below` series are appended. -/
def compareSeries (allSeries : List Series) (currentSeries : Nat) : List Series :=
  match getSeries allSeries currentSeries with
  | none => allSeries
  | some series =>
    if !series.compare.enabled || series.compare.seriesIndex == currentSeries then
      allSeries
    else
      match getSeries allSeries series.compare.seriesIndex with
      | none => allSeries
      | some comparedSeries =>
        let isVertical := subjectIsVertical series
        let compareData := flattenData comparedSeries.data isVertical
        let above := copySeries series series.datapoints series.compare.colorAbove
        let below := copySeries series series.datapoints series.compare.colorBelow
        let classified := classifyData series.data compareData isVertical
        (allSeries.set currentSeries (hideSeries series))
          ++ [above.setData classified.1, below.setData classified.2]

/-! Reference semantics of the style-flag groups.

`copySeries` runs `copy.bars = $.extend({}, series.bars)` (and the same for
`lines` and `points`, source lines 114-116): each call allocates a fresh
object whose own properties equal the source group's.  Aliasing between
series is invisible in the pure value model above, so the groups are also
modelled with an explicit store: a series holds three references (object
identities) into a heap of style-group cells, and `$.extend({}, g)` is an
allocation of a new cell holding a copy of `g`'s flags. -/

/-- A style-flag group as a heap cell: the flags `$.extend` copies. -/
structure StyleGroup where
  showFlag : Bool
  horizontal : Bool
deriving DecidableEq

/-- The object store: cell `i` is the style group at address `i`. -/
structure Heap where
  cells : List StyleGroup
deriving DecidableEq

/-- The three style-group references (object identities) of one series. -/
structure SeriesRefs where
  barsRef : Nat
  linesRef : Nat
  pointsRef : Nat
deriving DecidableEq

/-- Allocate a fresh cell holding `g`; returns the new heap and the address. -/
def Heap.alloc (h : Heap) (g : StyleGroup) : Heap × Nat :=
  (⟨h.cells ++ [g]⟩, h.cells.length)

/-- Read the cell at address `i` (`none` for a dangling reference). -/
def Heap.read (h : Heap) (i : Nat) : Option StyleGroup :=
  h.cells[i]?

/-- Overwrite the cell at address `i` — an in-place mutation of that style
group, such as `above.bars.show = false` performed later by a caller. -/
def Heap.write (h : Heap) (i : Nat) (g : StyleGroup) : Heap :=
  ⟨h.cells.set i g⟩

/-- The three addresses of a series' style groups, as a list. -/
def SeriesRefs.refs (s : SeriesRefs) : List Nat :=
  [s.barsRef, s.linesRef, s.pointsRef]

/-- Reference-level shadow of `copySeries` (source lines 114-116): each of
`copy.bars = $.extend({}, series.bars)`, `copy.lines = $.extend({},
series.lines)`, `copy.points = $.extend({}, series.points)` allocates a new
cell initialised with the source group's flags. -/
def copySeriesRefs (h : Heap) (series : SeriesRefs) : Heap × SeriesRefs :=
  let bars := h.alloc ((h.read series.barsRef).getD ⟨false, false⟩)
  let lines := bars.1.alloc ((bars.1.read series.linesRef).getD ⟨false, false⟩)
  let points := lines.1.alloc ((lines.1.read series.pointsRef).getD ⟨false, false⟩)
  (points.1, ⟨bars.2, lines.2, points.2⟩)

/-- Stable merge of the two classified lists back into one sequence, driven
by a mask that records, for each original position in order, whether the
point at that position went to the `above` list (`true`) or the `below` list
(`false`).  Merging by that positional mask is merging by original
position. -/
def mergeByMask : List Bool → List Point → List Point → List Point
  | [], _, _ => []
  | true :: mask, a :: above, below => a :: mergeByMask mask above below
  | true :: _, [], _ => []
  | false :: mask, above, b :: below => b :: mergeByMask mask above below
  | false :: _, _, [] => []

/-! Helper lemmas about the loop, the lookup and the merge. -/

theorem mergeByMask_filter (tag : Point → Bool) (l : List Point) :
    mergeByMask (l.map tag) (l.filter tag) (l.filter (fun p => !tag p)) = l := by
  induction l with
  | nil => rfl
  | cons x xs ih =>
    by_cases h : tag x = true
    · simp [List.filter_cons, h, mergeByMask, ih]
    · rw [Bool.not_eq_true] at h
      simp [List.filter_cons, h, mergeByMask, ih]

theorem flattenData_foldl (v : Bool) (data : List Point) (acc : Int → Option Int)
    (k : Int) :
    data.foldl
      (fun flat p => fun j =>
        if j = pointKey v p then some (pointValue v p) else flat j)
      acc k =
      ((data.reverse.find? (fun p => pointKey v p == k)).map (pointValue v)).or
        (acc k) := by
  induction data generalizing acc with
  | nil => rfl
  | cons x xs ih =>
    rw [List.foldl_cons, ih, List.reverse_cons, List.find?_append]
    cases hf : xs.reverse.find? (fun p => pointKey v p == k) with
    | some p => simp
    | none =>
      by_cases hk : k = pointKey v x
      · simp [List.find?, hk]
      · have hk' : (pointKey v x == k) = false := by
          simp [Ne.symm hk]
        simp [List.find?, hk, hk']

theorem flattenData_apply (data : List Point) (v : Bool) (k : Int) :
    flattenData data v k =
      (data.reverse.find? (fun p => pointKey v p == k)).map (pointValue v) := by
  rw [flattenData, flattenData_foldl]
  simp

theorem classifyData_foldl (cd : Int → Option Int) (v : Bool) (d : List Point)
    (a b : List Point) :
    d.foldl
      (fun acc data =>
        if classifyAbove cd (pointKey v data) (pointValue v data)
        then (acc.1 ++ [data], acc.2)
        else (acc.1, acc.2 ++ [data]))
      (a, b) =
      (a ++ d.filter (fun p => classifyAbove cd (pointKey v p) (pointValue v p)),
       b ++ d.filter (fun p => !classifyAbove cd (pointKey v p) (pointValue v p))) := by
  induction d generalizing a b with
  | nil => simp
  | cons x xs ih =>
    by_cases h : classifyAbove cd (pointKey v x) (pointValue v x) = true
    · simp [List.foldl_cons, h, ih, List.filter_cons]
    · rw [Bool.not_eq_true] at h
      simp [List.foldl_cons, h, ih, List.filter_cons]

theorem classifyData_eq (d : List Point) (cd : Int → Option Int) (v : Bool) :
    classifyData d cd v =
      (d.filter (fun p => classifyAbove cd (pointKey v p) (pointValue v p)),
       d.filter (fun p => !classifyAbove cd (pointKey v p) (pointValue v p))) := by
  simpa using classifyData_foldl cd v d [] []

/-- The classification predicate the loop applies to a subject point `p`,
with the lookup built from the reference's data and both extractions using
the subject's orientation. -/
def classifiesAbove (s r : Series) (p : Point) : Bool :=
  classifyAbove (flattenData r.data (subjectIsVertical s))
    (pointKey (subjectIsVertical s) p) (pointValue (subjectIsVertical s) p)

/-- The `above` series a successful partition appends: the copy of the
subject coloured `colorAbove`, carrying the points classified above. -/
def partitionAbove (s r : Series) : Series :=
  (copySeries s s.datapoints s.compare.colorAbove).setData
    (s.data.filter (fun p => classifiesAbove s r p))

/-- The `below` series a successful partition appends: the copy of the
subject coloured `colorBelow`, carrying the points classified below. -/
def partitionBelow (s r : Series) : Series :=
  (copySeries s s.datapoints s.compare.colorBelow).setData
    (s.data.filter (fun p => !classifiesAbove s r p))

theorem setData_data (s : Series) (d : List Point) : (s.setData d).data = d := by
  cases s
  rfl

theorem setData_label (s : Series) (d : List Point) : (s.setData d).label = s.label := by
  cases s
  rfl

theorem setData_color (s : Series) (d : List Point) : (s.setData d).color = s.color := by
  cases s
  rfl

theorem setData_compare (s : Series) (d : List Point) :
    (s.setData d).compare = s.compare := by
  cases s
  rfl

theorem setData_originSeries (s : Series) (d : List Point) :
    (s.setData d).originSeries = s.originSeries := by
  cases s
  rfl

theorem hideSeries_data (s : Series) : (hideSeries s).data = s.data := by
  cases s
  rfl

theorem hideSeries_flags (s : Series) :
    (hideSeries s).bars.showFlag = false ∧ (hideSeries s).lines.showFlag = false ∧
      (hideSeries s).points.showFlag = false := by
  cases s
  exact ⟨rfl, rfl, rfl⟩

theorem hideSeries_rest (s : Series) :
    (hideSeries s).bars.horizontal = s.bars.horizontal ∧
      (hideSeries s).label = s.label ∧ (hideSeries s).color = s.color ∧
      (hideSeries s).compare = s.compare ∧
      (hideSeries s).datapoints = s.datapoints ∧
      (hideSeries s).originSeries = s.originSeries := by
  cases s
  exact ⟨rfl, rfl, rfl, rfl, rfl, rfl⟩

theorem classifyAbove_iff (cd : Int → Option Int) (key value : Int) :
    classifyAbove cd key value = true ↔
      ((∃ c, cd key = some c ∧ value ≥ c) ∨ cd key = none) := by
  cases h : cd key <;> simp [classifyAbove, h]

theorem classifyAbove_false_iff (cd : Int → Option Int) (key value : Int) :
    classifyAbove cd key value = false ↔ ∃ c, cd key = some c ∧ value < c := by
  cases h : cd key <;> simp [classifyAbove, h, Int.not_le]

/-- The full-partition equation: when the subject at `pos` has comparison
enabled, does not reference its own position, and the reference index
resolves to a series `r`, the hook replaces the subject by its hidden copy
and appends the `above` and `below` series carrying the filtered data. -/
theorem compareSeries_eq (allSeries : List Series) (pos : Nat) (s r : Series)
    (hs : allSeries[pos]? = some s)
    (hen : s.compare.enabled = true)
    (hne : s.compare.seriesIndex ≠ pos)
    (hr : allSeries[s.compare.seriesIndex]? = some r) :
    compareSeries allSeries pos =
      allSeries.set pos (hideSeries s) ++ [partitionAbove s r, partitionBelow s r] := by
  simp [compareSeries, getSeries, hs, hr, hen, hne, classifyData_eq,
    partitionAbove, partitionBelow, classifiesAbove]

/-- The no-op equation: disabled comparison, self-reference, or an
unresolvable reference index leaves the series list untouched. -/
theorem compareSeries_noop (allSeries : List Series) (pos : Nat) (s : Series)
    (hs : allSeries[pos]? = some s)
    (h : s.compare.enabled = false ∨ s.compare.seriesIndex = pos ∨
      allSeries[s.compare.seriesIndex]? = none) :
    compareSeries allSeries pos = allSeries := by
  rcases h with h | h | h
  · simp [compareSeries, getSeries, hs, h]
  · simp [compareSeries, getSeries, hs, h]
  · rcases hen : s.compare.enabled with _ | _
    · simp [compareSeries, getSeries, hs, hen]
    · rcases hq : s.compare.seriesIndex == pos with _ | _
      · simp [compareSeries, getSeries, hs, hen, hq, h]
      · simp [compareSeries, getSeries, hs, hen, hq, h]

/-! Concrete series used to instantiate the theorems, following the worked
scenario of the plugin's documentation: subject points
`[[1,5],[2,3],[3,8]]`, reference points `[[1,5],[2,4],[3,7]]`, vertical
orientation. -/

/-- Shared point-format metadata for the example series. -/
def exampleDatapoints : Datapoints :=
  { points := [], pointsize := 2, format := none }

/-- Example subject: comparison enabled against the series at index 1. -/
def exampleSubject : Series :=
  .mk
    { data := [(1, 5), (2, 3), (3, 8)]
      bars := { showFlag := true, horizontal := false }
      lines := { showFlag := false }
      points := { showFlag := false }
      label := some "subject"
      color := "#0000FF"
      compare :=
        { enabled := true, seriesIndex := 1
          colorAbove := "#FF0000", colorBelow := "#00FF00" }
      datapoints := exampleDatapoints }
    none

/-- Example reference: comparison disabled. -/
def exampleReference : Series :=
  .mk
    { data := [(1, 5), (2, 4), (3, 7)]
      bars := { showFlag := false, horizontal := false }
      lines := { showFlag := true }
      points := { showFlag := false }
      label := some "reference"
      color := "#000000"
      compare := { enabled := false }
      datapoints := exampleDatapoints }
    none

/-- The example plot's series list: subject at position 0, reference at 1. -/
def exampleList : List Series := [exampleSubject, exampleReference]

/-! The claims. -/

/-- C1: for every partitioned subject (comparison enabled, reference index
distinct from the subject's position and resolving to a series `r`), a point
of the subject lands in the `above` series exactly when its extracted value
is at least the reference lookup's value for its key or its key is absent
from the lookup, and in the `below` series exactly when the key is present
and the value is strictly below the lookup's value. -/
theorem c1_classification (allSeries : List Series) (pos : Nat) (s r : Series)
    (hs : allSeries[pos]? = some s)
    (hen : s.compare.enabled = true)
    (hne : s.compare.seriesIndex ≠ pos)
    (hr : allSeries[s.compare.seriesIndex]? = some r) :
    compareSeries allSeries pos =
      allSeries.set pos (hideSeries s) ++ [partitionAbove s r, partitionBelow s r] ∧
    (∀ p : Point, p ∈ (partitionAbove s r).data ↔ p ∈ s.data ∧
      ((∃ c, flattenData r.data (subjectIsVertical s)
            (pointKey (subjectIsVertical s) p) = some c ∧
          pointValue (subjectIsVertical s) p ≥ c) ∨
        flattenData r.data (subjectIsVertical s)
          (pointKey (subjectIsVertical s) p) = none)) ∧
    (∀ p : Point, p ∈ (partitionBelow s r).data ↔ p ∈ s.data ∧
      (∃ c, flattenData r.data (subjectIsVertical s)
          (pointKey (subjectIsVertical s) p) = some c ∧
        pointValue (subjectIsVertical s) p < c)) := by
  refine ⟨compareSeries_eq allSeries pos s r hs hen hne hr, ?_, ?_⟩
  · intro p
    rw [partitionAbove, setData_data, List.mem_filter, classifiesAbove, classifyAbove_iff]
  · intro p
    rw [partitionBelow, setData_data, List.mem_filter]
    simp only [Bool.not_eq_true']
    rw [classifiesAbove, classifyAbove_false_iff]

/-- Witness for C1 at the documented scenario. -/
theorem c1_classification_witness :
    exampleList[0]? = some exampleSubject ∧
    exampleSubject.compare.enabled = true ∧
    exampleSubject.compare.seriesIndex ≠ 0 ∧
    exampleList[exampleSubject.compare.seriesIndex]? = some exampleReference ∧
    (partitionAbove exampleSubject exampleReference).data = [(1, 5), (3, 8)] ∧
    (partitionBelow exampleSubject exampleReference).data = [(2, 3)] ∧
    ((2, 3) ∈ (partitionBelow exampleSubject exampleReference).data ↔
      (2, 3) ∈ exampleSubject.data ∧
      (∃ c, flattenData exampleReference.data (subjectIsVertical exampleSubject)
          (pointKey (subjectIsVertical exampleSubject) (2, 3)) = some c ∧
        pointValue (subjectIsVertical exampleSubject) (2, 3) < c)) :=
  ⟨rfl, rfl, by decide, rfl, by rfl, by rfl,
    (c1_classification exampleList 0 exampleSubject exampleReference rfl rfl
      (by decide) rfl).2.2 (2, 3)⟩

theorem count_filter_split (q : Point → Bool) (l : List Point) (p : Point) :
    (l.filter q).count p + (l.filter (fun x => !q x)).count p = l.count p := by
  induction l with
  | nil => rfl
  | cons x xs ih =>
    rw [List.filter_cons, List.filter_cons]
    rcases eq_or_ne p x with hpx | hpx
    · subst hpx
      cases hq : q p
      · rw [if_neg (by simp [hq]), if_pos (by simp [hq]), List.count_cons_self,
          List.count_cons_self]
        omega
      · rw [if_pos (by simp [hq]), if_neg (by simp [hq]), List.count_cons_self,
          List.count_cons_self]
        omega
    · cases hq : q x
      · rw [if_neg (by simp [hq]), if_pos (by simp [hq]), List.count_cons_of_ne hpx,
          List.count_cons_of_ne hpx]
        exact ih
      · rw [if_pos (by simp [hq]), if_neg (by simp [hq]), List.count_cons_of_ne hpx,
          List.count_cons_of_ne hpx]
        exact ih

/-- C2: for every partitioned subject with N points, the two derived series'
data lengths sum to N, and every subject point is placed in exactly one of
the two derived series (counted with multiplicity, and never in both). -/
theorem c2_total_partition (allSeries : List Series) (pos : Nat) (s r : Series)
    (hs : allSeries[pos]? = some s)
    (hen : s.compare.enabled = true)
    (hne : s.compare.seriesIndex ≠ pos)
    (hr : allSeries[s.compare.seriesIndex]? = some r) :
    compareSeries allSeries pos =
      allSeries.set pos (hideSeries s) ++ [partitionAbove s r, partitionBelow s r] ∧
    (partitionAbove s r).data.length + (partitionBelow s r).data.length =
      s.data.length ∧
    (∀ p : Point, (partitionAbove s r).data.count p +
      (partitionBelow s r).data.count p = s.data.count p) ∧
    (∀ p : Point, ¬(p ∈ (partitionAbove s r).data ∧ p ∈ (partitionBelow s r).data)) := by
  have hperm := List.filter_append_perm (fun p => classifiesAbove s r p) s.data
  refine ⟨compareSeries_eq allSeries pos s r hs hen hne hr, ?_, ?_, ?_⟩
  · rw [partitionAbove, partitionBelow, setData_data, setData_data,
      ← List.length_append, hperm.length_eq]
  · intro p
    rw [partitionAbove, partitionBelow, setData_data, setData_data]
    exact count_filter_split (fun p => classifiesAbove s r p) s.data p
  · intro p
    rw [partitionAbove, partitionBelow, setData_data, setData_data]
    rintro ⟨ha, hb⟩
    have h1 := (List.mem_filter.mp ha).2
    have h2 := (List.mem_filter.mp hb).2
    simp only [Bool.not_eq_true'] at h2
    rw [h2] at h1
    exact Bool.false_ne_true h1

/-- Witness for C2 at the documented scenario: 2 + 1 = 3 points. -/
theorem c2_total_partition_witness :
    exampleList[0]? = some exampleSubject ∧
    exampleSubject.compare.enabled = true ∧
    exampleSubject.compare.seriesIndex ≠ 0 ∧
    exampleList[exampleSubject.compare.seriesIndex]? = some exampleReference ∧
    (partitionAbove exampleSubject exampleReference).data.length +
      (partitionBelow exampleSubject exampleReference).data.length =
      exampleSubject.data.length :=
  ⟨rfl, rfl, by decide, rfl,
    (c2_total_partition exampleList 0 exampleSubject exampleReference rfl rfl
      (by decide) rfl).2.1⟩

/-- C3: within each derived series the points keep the subject's original
order (each data list is a sublist of the subject's data), and stably
merging the two lists back by original position — following the mask that
records each original position's classification — reconstructs the subject's
data exactly. -/
theorem c3_order_roundtrip (allSeries : List Series) (pos : Nat) (s r : Series)
    (hs : allSeries[pos]? = some s)
    (hen : s.compare.enabled = true)
    (hne : s.compare.seriesIndex ≠ pos)
    (hr : allSeries[s.compare.seriesIndex]? = some r) :
    compareSeries allSeries pos =
      allSeries.set pos (hideSeries s) ++ [partitionAbove s r, partitionBelow s r] ∧
    (partitionAbove s r).data.Sublist s.data ∧
    (partitionBelow s r).data.Sublist s.data ∧
    mergeByMask (s.data.map (fun p => classifiesAbove s r p))
      (partitionAbove s r).data (partitionBelow s r).data = s.data := by
  refine ⟨compareSeries_eq allSeries pos s r hs hen hne hr, ?_, ?_, ?_⟩
  · rw [partitionAbove, setData_data]
    exact List.filter_sublist s.data
  · rw [partitionBelow, setData_data]
    exact List.filter_sublist s.data
  · rw [partitionAbove, partitionBelow, setData_data, setData_data]
    exact mergeByMask_filter (fun p => classifiesAbove s r p) s.data

/-- Witness for C3 at the documented scenario. -/
theorem c3_order_roundtrip_witness :
    exampleList[0]? = some exampleSubject ∧
    exampleSubject.compare.enabled = true ∧
    exampleSubject.compare.seriesIndex ≠ 0 ∧
    exampleList[exampleSubject.compare.seriesIndex]? = some exampleReference ∧
    mergeByMask
      (exampleSubject.data.map (fun p => classifiesAbove exampleSubject exampleReference p))
      (partitionAbove exampleSubject exampleReference).data
      (partitionBelow exampleSubject exampleReference).data = exampleSubject.data :=
  ⟨rfl, rfl, by decide, rfl,
    (c3_order_roundtrip exampleList 0 exampleSubject exampleReference rfl rfl
      (by decide) rfl).2.2.2⟩

/-- C4: when comparison is disabled, or the reference index equals the
subject's own position, or the reference index resolves to no series, the
hook is a silent no-op: the series list — hence every series' visibility
flag — is returned unchanged, and no error is possible (the function is
total). -/
theorem c4_silent_noop (allSeries : List Series) (pos : Nat) (s : Series)
    (hs : allSeries[pos]? = some s)
    (h : s.compare.enabled = false ∨ s.compare.seriesIndex = pos ∨
      allSeries[s.compare.seriesIndex]? = none) :
    compareSeries allSeries pos = allSeries :=
  compareSeries_noop allSeries pos s hs h

/-- Witness for C4: the example reference series has comparison disabled, so
processing position 1 leaves the example list unchanged. -/
theorem c4_silent_noop_witness :
    exampleList[1]? = some exampleReference ∧
    exampleReference.compare.enabled = false ∧
    compareSeries exampleList 1 = exampleList :=
  ⟨rfl, rfl,
    c4_silent_noop exampleList 1 exampleReference rfl (Or.inl rfl)⟩

/-- Frame conditions of a successful partition, shared by several claims:
the result is the subject hidden in place plus the two appended derived
series; positions other than the subject's are untouched; hiding changes
only the three visibility flags. -/
theorem compareSeries_frame (allSeries : List Series) (pos : Nat) (s r : Series)
    (hs : allSeries[pos]? = some s)
    (hen : s.compare.enabled = true)
    (hne : s.compare.seriesIndex ≠ pos)
    (hr : allSeries[s.compare.seriesIndex]? = some r) :
    compareSeries allSeries pos =
      allSeries.set pos (hideSeries s) ++ [partitionAbove s r, partitionBelow s r] ∧
    (compareSeries allSeries pos).length = allSeries.length + 2 ∧
    (∀ i, i ≠ pos → i < allSeries.length →
      (compareSeries allSeries pos)[i]? = allSeries[i]?) ∧
    (compareSeries allSeries pos)[pos]? = some (hideSeries s) ∧
    (compareSeries allSeries pos)[allSeries.length]? = some (partitionAbove s r) ∧
    (compareSeries allSeries pos)[allSeries.length + 1]? = some (partitionBelow s r) ∧
    (hideSeries s).data = s.data ∧
    (hideSeries s).bars.showFlag = false ∧
    (hideSeries s).lines.showFlag = false ∧
    (hideSeries s).points.showFlag = false ∧
    (hideSeries s).bars.horizontal = s.bars.horizontal ∧
    (hideSeries s).label = s.label ∧
    (hideSeries s).color = s.color ∧
    (hideSeries s).compare = s.compare ∧
    (hideSeries s).datapoints = s.datapoints ∧
    (hideSeries s).originSeries = s.originSeries := by
  have heq := compareSeries_eq allSeries pos s r hs hen hne hr
  have hpos : pos < allSeries.length := (List.getElem?_eq_some.mp hs).1
  refine ⟨heq, ?_, ?_, ?_, ?_, ?_, hideSeries_data s, (hideSeries_flags s).1,
    (hideSeries_flags s).2.1, (hideSeries_flags s).2.2, (hideSeries_rest s).1,
    (hideSeries_rest s).2.1, (hideSeries_rest s).2.2.1, (hideSeries_rest s).2.2.2.1,
    (hideSeries_rest s).2.2.2.2.1, (hideSeries_rest s).2.2.2.2.2⟩
  · rw [heq, List.length_append, List.length_set]
    rfl
  · intro i hip hil
    rw [heq, List.getElem?_append_left (by rw [List.length_set]; exact hil),
      List.getElem?_set_ne (Ne.symm hip)]
  · rw [heq, List.getElem?_append_left (by rw [List.length_set]; exact hpos)]
    simp [List.getElem?_set, hpos]
  · rw [heq, List.getElem?_append_right (by simp [List.length_set])]
    simp [List.length_set]
  · rw [heq, List.getElem?_append_right (by simp [List.length_set])]
    simp [List.length_set]

/-- C5: a successful partition performs exactly these mutations: the two
derived series `above` then `below` are appended, in that order, at the end
of the series list, and the subject's bar/line/point visibility flags are
set to false; the subject's point sequence and its other attributes are
untouched, and every other existing series is untouched. -/
theorem c5_frame_effect (allSeries : List Series) (pos : Nat) (s r : Series)
    (hs : allSeries[pos]? = some s)
    (hen : s.compare.enabled = true)
    (hne : s.compare.seriesIndex ≠ pos)
    (hr : allSeries[s.compare.seriesIndex]? = some r) :
    compareSeries allSeries pos =
      allSeries.set pos (hideSeries s) ++ [partitionAbove s r, partitionBelow s r] ∧
    (compareSeries allSeries pos).length = allSeries.length + 2 ∧
    (∀ i, i ≠ pos → i < allSeries.length →
      (compareSeries allSeries pos)[i]? = allSeries[i]?) ∧
    (compareSeries allSeries pos)[pos]? = some (hideSeries s) ∧
    (compareSeries allSeries pos)[allSeries.length]? = some (partitionAbove s r) ∧
    (compareSeries allSeries pos)[allSeries.length + 1]? = some (partitionBelow s r) ∧
    (hideSeries s).data = s.data ∧
    (hideSeries s).bars.showFlag = false ∧
    (hideSeries s).lines.showFlag = false ∧
    (hideSeries s).points.showFlag = false ∧
    (hideSeries s).bars.horizontal = s.bars.horizontal ∧
    (hideSeries s).label = s.label ∧
    (hideSeries s).color = s.color ∧
    (hideSeries s).compare = s.compare ∧
    (hideSeries s).datapoints = s.datapoints ∧
    (hideSeries s).originSeries = s.originSeries :=
  compareSeries_frame allSeries pos s r hs hen hne hr

/-- Witness for C5 at the documented scenario. -/
theorem c5_frame_effect_witness :
    exampleList[0]? = some exampleSubject ∧
    exampleSubject.compare.enabled = true ∧
    exampleSubject.compare.seriesIndex ≠ 0 ∧
    exampleList[exampleSubject.compare.seriesIndex]? = some exampleReference ∧
    compareSeries exampleList 0 =
      exampleList.set 0 (hideSeries exampleSubject) ++
        [partitionAbove exampleSubject exampleReference,
         partitionBelow exampleSubject exampleReference] :=
  ⟨rfl, rfl, by decide, rfl,
    (c5_frame_effect exampleList 0 exampleSubject exampleReference rfl rfl
      (by decide) rfl).1⟩

/-- C6: the lookup built by `flattenData` is a pure function of the point
list and the orientation; it contains exactly the keys occurring in the
list, and for a duplicated key the retained value is the last-seen one. -/
theorem c6_flatten_lookup (data : List Point) (v : Bool) (k : Int) :
    ((flattenData data v k).isSome = true ↔ k ∈ data.map (pointKey v)) ∧
    flattenData data v k =
      (data.reverse.find? (fun p => pointKey v p == k)).map (pointValue v) ∧
    (∀ pre post q, data = pre ++ q :: post →
      (∀ x ∈ post, pointKey v x ≠ pointKey v q) →
      flattenData data v (pointKey v q) = some (pointValue v q)) := by
  refine ⟨?_, flattenData_apply data v k, ?_⟩
  · rw [flattenData_apply]
    simp [List.find?_isSome, List.mem_reverse, List.mem_map, beq_iff_eq]
  · intro pre post q hdata hpost
    rw [hdata, flattenData_apply, List.reverse_append, List.reverse_cons,
      List.find?_append, List.find?_append]
    have h0 : post.reverse.find? (fun p => pointKey v p == pointKey v q) = none := by
      rw [List.find?_eq_none]
      intro x hx
      simp [hpost x (List.mem_reverse.mp hx)]
    rw [h0]
    simp

/-- Witness for C6: a duplicated key `1` retains the last-seen value `9`. -/
theorem c6_flatten_lookup_witness :
    flattenData [((1 : Int), (5 : Int)), (1, 9)] true (pointKey true (1, 9)) =
      some (pointValue true (1, 9)) :=
  (c6_flatten_lookup [(1, 5), (1, 9)] true 1).2.2 [(1, 5)] [] (1, 9) rfl (by simp)

/-- A restyled copy of the example reference: same data, but laid out as a
horizontal bar chart — its own orientation flags must not matter. -/
def exampleReferenceHorizontal : Series :=
  .mk
    { data := [(1, 5), (2, 4), (3, 7)]
      bars := { showFlag := true, horizontal := true }
      lines := { showFlag := false }
      points := { showFlag := true }
      label := some "reference-restyled"
      color := "#111111"
      compare := { enabled := false }
      datapoints := exampleDatapoints }
    none

/-- C7: orientation is vertical by default and horizontal exactly when the
subject's bars are shown and horizontal; vertical extraction takes the key
from the horizontal coordinate and the value from the vertical one, and
horizontal extraction swaps them; the subject's orientation drives the
extraction on both series — replacing the reference by any series with the
same data (and arbitrary orientation or style flags of its own) leaves the
derived series unchanged. -/
theorem c7_orientation (allSeries : List Series) (pos : Nat) (s r : Series)
    (hs : allSeries[pos]? = some s)
    (hen : s.compare.enabled = true)
    (hne : s.compare.seriesIndex ≠ pos)
    (hr : allSeries[s.compare.seriesIndex]? = some r) :
    (subjectIsVertical s = false ↔
      s.bars.showFlag = true ∧ s.bars.horizontal = true) ∧
    (∀ p : Point, pointKey true p = p.1 ∧ pointValue true p = p.2 ∧
      pointKey false p = p.2 ∧ pointValue false p = p.1) ∧
    compareSeries allSeries pos =
      allSeries.set pos (hideSeries s) ++ [partitionAbove s r, partitionBelow s r] ∧
    (∀ r' : Series, r'.data = r.data →
      partitionAbove s r' = partitionAbove s r ∧
      partitionBelow s r' = partitionBelow s r ∧
      compareSeries (allSeries.set s.compare.seriesIndex r') pos =
        (allSeries.set s.compare.seriesIndex r').set pos (hideSeries s) ++
          [partitionAbove s r, partitionBelow s r]) := by
  have hidx : s.compare.seriesIndex < allSeries.length := (List.getElem?_eq_some.mp hr).1
  refine ⟨?_, fun p => ⟨rfl, rfl, rfl, rfl⟩,
    compareSeries_eq allSeries pos s r hs hen hne hr, ?_⟩
  · cases hb : s.bars.showFlag <;> cases hh : s.bars.horizontal <;>
      simp [subjectIsVertical, hb, hh]
  · intro r' hd
    have hab : partitionAbove s r' = partitionAbove s r := by
      simp only [partitionAbove, classifiesAbove, hd]
    have hbb : partitionBelow s r' = partitionBelow s r := by
      simp only [partitionBelow, classifiesAbove, hd]
    refine ⟨hab, hbb, ?_⟩
    have hs' : (allSeries.set s.compare.seriesIndex r')[pos]? = some s := by
      rw [List.getElem?_set_ne hne]
      exact hs
    have hr' : (allSeries.set s.compare.seriesIndex r')[s.compare.seriesIndex]? =
        some r' := by
      simp [List.getElem?_set, hidx]
    rw [compareSeries_eq (allSeries.set s.compare.seriesIndex r') pos s r' hs' hen
      hne hr', hab, hbb]

/-- Witness for C7: the restyled horizontal reference yields the same
`above` series as the original reference. -/
theorem c7_orientation_witness :
    exampleList[0]? = some exampleSubject ∧
    exampleSubject.compare.enabled = true ∧
    exampleSubject.compare.seriesIndex ≠ 0 ∧
    exampleList[exampleSubject.compare.seriesIndex]? = some exampleReference ∧
    exampleReferenceHorizontal.data = exampleReference.data ∧
    partitionAbove exampleSubject exampleReferenceHorizontal =
      partitionAbove exampleSubject exampleReference :=
  ⟨rfl, rfl, by decide, rfl, rfl,
    ((c7_orientation exampleList 0 exampleSubject exampleReference rfl rfl
      (by decide) rfl).2.2.2 exampleReferenceHorizontal rfl).1⟩

/-- C9: every derived series has, at creation, an empty point sequence, no
label, the single assigned color (`colorAbove` for the `above` series,
`colorBelow` for the `below` series), a back-reference to the originating
subject series, and comparison disabled — so a later partition pass over a
derived series is a no-op. -/
theorem c9_derived_series (allSeries : List Series) (pos : Nat) (s r : Series)
    (hs : allSeries[pos]? = some s)
    (hen : s.compare.enabled = true)
    (hne : s.compare.seriesIndex ≠ pos)
    (hr : allSeries[s.compare.seriesIndex]? = some r) :
    compareSeries allSeries pos =
      allSeries.set pos (hideSeries s) ++ [partitionAbove s r, partitionBelow s r] ∧
    (∀ c : String,
      (copySeries s s.datapoints c).data = [] ∧
      (copySeries s s.datapoints c).label = none ∧
      (copySeries s s.datapoints c).color = c ∧
      (copySeries s s.datapoints c).originSeries = some s ∧
      (copySeries s s.datapoints c).compare.enabled = false) ∧
    (partitionAbove s r).color = s.compare.colorAbove ∧
    (partitionBelow s r).color = s.compare.colorBelow ∧
    (partitionAbove s r).label = none ∧
    (partitionBelow s r).label = none ∧
    (partitionAbove s r).originSeries = some s ∧
    (partitionBelow s r).originSeries = some s ∧
    (partitionAbove s r).compare.enabled = false ∧
    (partitionBelow s r).compare.enabled = false ∧
    (∀ allSeries2 pos2, allSeries2[pos2]? = some (partitionAbove s r) →
      compareSeries allSeries2 pos2 = allSeries2) ∧
    (∀ allSeries2 pos2, allSeries2[pos2]? = some (partitionBelow s r) →
      compareSeries allSeries2 pos2 = allSeries2) := by
  refine ⟨compareSeries_eq allSeries pos s r hs hen hne hr,
    fun c => ⟨rfl, rfl, rfl, rfl, rfl⟩, rfl, rfl, rfl, rfl, rfl, rfl, rfl, rfl,
    ?_, ?_⟩
  · intro allSeries2 pos2 h2
    exact compareSeries_noop allSeries2 pos2 (partitionAbove s r) h2 (Or.inl rfl)
  · intro allSeries2 pos2 h2
    exact compareSeries_noop allSeries2 pos2 (partitionBelow s r) h2 (Or.inl rfl)

/-- Witness for C9: the derived `above` series of the documented scenario
has the assigned color and is skipped when processed in a later pass. -/
theorem c9_derived_series_witness :
    exampleList[0]? = some exampleSubject ∧
    exampleSubject.compare.enabled = true ∧
    exampleSubject.compare.seriesIndex ≠ 0 ∧
    exampleList[exampleSubject.compare.seriesIndex]? = some exampleReference ∧
    (partitionAbove exampleSubject exampleReference).color =
      exampleSubject.compare.colorAbove ∧
    compareSeries [partitionAbove exampleSubject exampleReference] 0 =
      [partitionAbove exampleSubject exampleReference] :=
  ⟨rfl, rfl, by decide, rfl,
    (c9_derived_series exampleList 0 exampleSubject exampleReference rfl rfl
      (by decide) rfl).2.2.1,
    (c9_derived_series exampleList 0 exampleSubject exampleReference rfl rfl
      (by decide) rfl).2.2.2.2.2.2.2.2.2.2.1
      [partitionAbove exampleSubject exampleReference] 0 rfl⟩

/-- An example subject with an empty point sequence but a valid distinct
reference. -/
def exampleEmptySubject : Series :=
  .mk
    { data := []
      bars := { showFlag := true, horizontal := false }
      lines := { showFlag := false }
      points := { showFlag := false }
      label := some "empty-subject"
      color := "#0000FF"
      compare :=
        { enabled := true, seriesIndex := 1
          colorAbove := "#FF0000", colorBelow := "#00FF00" }
      datapoints := exampleDatapoints }
    none

/-- The series list for the empty-subject scenario. -/
def exampleEmptyList : List Series := [exampleEmptySubject, exampleReference]

/-- C10: a subject with comparison enabled and a valid distinct reference
but an empty point sequence is still partitioned — the hook is not a no-op:
it hides the subject and appends two derived series with empty data. -/
theorem c10_empty_subject (allSeries : List Series) (pos : Nat) (s r : Series)
    (hs : allSeries[pos]? = some s)
    (hen : s.compare.enabled = true)
    (hne : s.compare.seriesIndex ≠ pos)
    (hr : allSeries[s.compare.seriesIndex]? = some r)
    (hd : s.data = []) :
    compareSeries allSeries pos =
      allSeries.set pos (hideSeries s) ++ [partitionAbove s r, partitionBelow s r] ∧
    (partitionAbove s r).data = [] ∧
    (partitionBelow s r).data = [] ∧
    (compareSeries allSeries pos).length = allSeries.length + 2 ∧
    (compareSeries allSeries pos)[pos]? = some (hideSeries s) ∧
    (hideSeries s).bars.showFlag = false ∧
    (hideSeries s).lines.showFlag = false ∧
    (hideSeries s).points.showFlag = false ∧
    compareSeries allSeries pos ≠ allSeries := by
  obtain ⟨heq, hlen, _, hposv, _, _, _, hfb, hfl, hfp, _⟩ :=
    compareSeries_frame allSeries pos s r hs hen hne hr
  refine ⟨heq, ?_, ?_, hlen, hposv, hfb, hfl, hfp, ?_⟩
  · rw [partitionAbove, setData_data, hd]
    rfl
  · rw [partitionBelow, setData_data, hd]
    rfl
  · intro hcontra
    rw [hcontra] at hlen
    omega

/-- Witness for C10: the empty-data subject still splits into two appended
empty derived series. -/
theorem c10_empty_subject_witness :
    exampleEmptyList[0]? = some exampleEmptySubject ∧
    exampleEmptySubject.compare.enabled = true ∧
    exampleEmptySubject.compare.seriesIndex ≠ 0 ∧
    exampleEmptyList[exampleEmptySubject.compare.seriesIndex]? =
      some exampleReference ∧
    exampleEmptySubject.data = [] ∧
    compareSeries exampleEmptyList 0 ≠ exampleEmptyList :=
  ⟨rfl, rfl, by decide, rfl, rfl,
    (c10_empty_subject exampleEmptyList 0 exampleEmptySubject exampleReference
      rfl rfl (by decide) rfl rfl).2.2.2.2.2.2.2.2⟩

/-! Claim C8 concerns aliasing, so it is settled on the store model. -/

/-- The style-group references of the `above` copy created first by the
hook (`copySeries(series, ...)` at source line 176). -/
def splitAbove (h : Heap) (series : SeriesRefs) : SeriesRefs :=
  (copySeriesRefs h series).2

/-- The style-group references of the `below` copy created second (source
line 177), allocated in the heap left by the first copy. -/
def splitBelow (h : Heap) (series : SeriesRefs) : SeriesRefs :=
  (copySeriesRefs (copySeriesRefs h series).1 series).2

/-- The heap after both copies have been created. -/
def splitHeap (h : Heap) (series : SeriesRefs) : Heap :=
  (copySeriesRefs (copySeriesRefs h series).1 series).1

theorem getElem?_append_add {α : Type} (L M : List α) (k : Nat) :
    (L ++ M)[L.length + k]? = M[k]? := by
  rw [List.getElem?_append_right (by omega)]
  congr 1
  omega

theorem getElem?_append_len {α : Type} (L M : List α) :
    (L ++ M)[L.length]? = M[0]? := by
  simpa using getElem?_append_add L M 0

theorem copySeriesRefs_refs (h : Heap) (series : SeriesRefs) :
    (copySeriesRefs h series).2 =
      ⟨h.cells.length, h.cells.length + 1, h.cells.length + 2⟩ := by
  simp [copySeriesRefs, Heap.alloc]

theorem copySeriesRefs_cells (h : Heap) (series : SeriesRefs)
    (hl : series.linesRef < h.cells.length)
    (hp : series.pointsRef < h.cells.length) :
    (copySeriesRefs h series).1.cells =
      h.cells ++ [(h.cells[series.barsRef]?).getD ⟨false, false⟩,
        (h.cells[series.linesRef]?).getD ⟨false, false⟩,
        (h.cells[series.pointsRef]?).getD ⟨false, false⟩] := by
  have e2 : ∀ g1 : StyleGroup,
      (h.cells ++ [g1])[series.linesRef]? = h.cells[series.linesRef]? := by
    intro g1
    exact List.getElem?_append_left hl
  have e3 : ∀ g1 g2 : StyleGroup,
      (h.cells ++ [g1, g2])[series.pointsRef]? = h.cells[series.pointsRef]? := by
    intro g1 g2
    exact List.getElem?_append_left hp
  simp [copySeriesRefs, Heap.alloc, Heap.read, e2, e3]

/-- C8: the series cloner deep-copies the nested style-flag groups.  After a
partition creates `above` and then `below`, the style-group cells of the two
copies and of the subject are pairwise distinct references that initially
hold the subject's flag values, so overwriting any style group of `above`
leaves every style group of `below` and of the subject unchanged, and
symmetrically. -/
theorem c8_deep_copy (h : Heap) (s : SeriesRefs)
    (hb : s.barsRef < h.cells.length)
    (hl : s.linesRef < h.cells.length)
    (hp : s.pointsRef < h.cells.length) :
    ((splitHeap h s).read (splitAbove h s).barsRef = h.read s.barsRef ∧
      (splitHeap h s).read (splitAbove h s).linesRef = h.read s.linesRef ∧
      (splitHeap h s).read (splitAbove h s).pointsRef = h.read s.pointsRef ∧
      (splitHeap h s).read (splitBelow h s).barsRef = h.read s.barsRef ∧
      (splitHeap h s).read (splitBelow h s).linesRef = h.read s.linesRef ∧
      (splitHeap h s).read (splitBelow h s).pointsRef = h.read s.pointsRef) ∧
    (∀ i ∈ (splitAbove h s).refs, ∀ j ∈ (splitBelow h s).refs, i ≠ j) ∧
    (∀ i ∈ (splitAbove h s).refs, ∀ j ∈ s.refs, i ≠ j) ∧
    (∀ i ∈ (splitBelow h s).refs, ∀ j ∈ s.refs, i ≠ j) ∧
    (∀ g : StyleGroup, ∀ i ∈ (splitAbove h s).refs, ∀ j,
      (j ∈ (splitBelow h s).refs ∨ j ∈ s.refs) →
      ((splitHeap h s).write i g).read j = (splitHeap h s).read j) ∧
    (∀ g : StyleGroup, ∀ i ∈ (splitBelow h s).refs, ∀ j,
      (j ∈ (splitAbove h s).refs ∨ j ∈ s.refs) →
      ((splitHeap h s).write i g).read j = (splitHeap h s).read j) := by
  simp only [splitHeap, splitAbove, splitBelow]
  have hc1 := copySeriesRefs_cells h s hl hp
  have hn1 : (copySeriesRefs h s).1.cells.length = h.cells.length + 3 := by
    rw [hc1]
    simp
  have hrb : (copySeriesRefs h s).1.cells[s.barsRef]? = h.cells[s.barsRef]? := by
    rw [hc1]
    exact List.getElem?_append_left hb
  have hrl : (copySeriesRefs h s).1.cells[s.linesRef]? = h.cells[s.linesRef]? := by
    rw [hc1]
    exact List.getElem?_append_left hl
  have hrp : (copySeriesRefs h s).1.cells[s.pointsRef]? = h.cells[s.pointsRef]? := by
    rw [hc1]
    exact List.getElem?_append_left hp
  have hc2 := copySeriesRefs_cells (copySeriesRefs h s).1 s (by omega) (by omega)
  rw [hrb, hrl, hrp, hc1] at hc2
  simp only [List.append_assoc, List.cons_append, List.nil_append] at hc2
  have ha := copySeriesRefs_refs h s
  have hbel := copySeriesRefs_refs (copySeriesRefs h s).1 s
  rw [hn1] at hbel
  have hd1 : ∀ i ∈ ((copySeriesRefs h s).2).refs,
      ∀ j ∈ ((copySeriesRefs (copySeriesRefs h s).1 s).2).refs, i ≠ j := by
    intro i hi j hj
    rw [ha] at hi
    rw [hbel] at hj
    simp [SeriesRefs.refs] at hi hj
    rcases hi with hi | hi | hi <;> rcases hj with hj | hj | hj <;> omega
  have hd2 : ∀ i ∈ ((copySeriesRefs h s).2).refs, ∀ j ∈ s.refs, i ≠ j := by
    intro i hi j hj
    rw [ha] at hi
    simp [SeriesRefs.refs] at hi hj
    rcases hi with hi | hi | hi <;> rcases hj with hj | hj | hj <;> subst hj <;> omega
  have hd3 : ∀ i ∈ ((copySeriesRefs (copySeriesRefs h s).1 s).2).refs,
      ∀ j ∈ s.refs, i ≠ j := by
    intro i hi j hj
    rw [hbel] at hi
    simp [SeriesRefs.refs] at hi hj
    rcases hi with hi | hi | hi <;> rcases hj with hj | hj | hj <;> subst hj <;> omega
  refine ⟨⟨?_, ?_, ?_, ?_, ?_, ?_⟩, hd1, hd2, hd3, ?_, ?_⟩
  · rw [Heap.read, Heap.read, hc2, ha]
    show (h.cells ++ _)[h.cells.length]? = _
    rw [getElem?_append_len, List.getElem?_eq_getElem hb]
    simp
  · rw [Heap.read, Heap.read, hc2, ha]
    show (h.cells ++ _)[h.cells.length + 1]? = _
    rw [getElem?_append_add, List.getElem?_eq_getElem hl]
    simp
  · rw [Heap.read, Heap.read, hc2, ha]
    show (h.cells ++ _)[h.cells.length + 2]? = _
    rw [getElem?_append_add, List.getElem?_eq_getElem hp]
    simp
  · rw [Heap.read, Heap.read, hc2, hbel]
    show (h.cells ++ _)[h.cells.length + 3]? = _
    rw [getElem?_append_add, List.getElem?_eq_getElem hb]
    simp
  · rw [Heap.read, Heap.read, hc2, hbel]
    show (h.cells ++ _)[h.cells.length + 4]? = _
    rw [getElem?_append_add, List.getElem?_eq_getElem hl]
    simp
  · rw [Heap.read, Heap.read, hc2, hbel]
    show (h.cells ++ _)[h.cells.length + 5]? = _
    rw [getElem?_append_add, List.getElem?_eq_getElem hp]
    simp
  · intro g i hi j hj
    have hij : i ≠ j := by
      rcases hj with hj | hj
      · exact hd1 i hi j hj
      · exact hd2 i hi j hj
    rw [Heap.write, Heap.read, Heap.read]
    exact List.getElem?_set_ne hij
  · intro g i hi j hj
    have hij : i ≠ j := by
      rcases hj with hj | hj
      · exact Ne.symm (hd1 j hj i hi)
      · exact hd3 i hi j hj
    rw [Heap.write, Heap.read, Heap.read]
    exact List.getElem?_set_ne hij

/-- Concrete store for the C8 witness: the subject's three style groups live
at addresses 0, 1 and 2. -/
def exampleHeap : Heap :=
  ⟨[⟨true, false⟩, ⟨false, false⟩, ⟨true, true⟩]⟩

/-- The subject's style-group references in `exampleHeap`. -/
def exampleSubjectRefs : SeriesRefs := ⟨0, 1, 2⟩

/-- Witness for C8 on the concrete store. -/
theorem c8_deep_copy_witness :
    exampleSubjectRefs.barsRef < exampleHeap.cells.length ∧
    exampleSubjectRefs.linesRef < exampleHeap.cells.length ∧
    exampleSubjectRefs.pointsRef < exampleHeap.cells.length ∧
    (splitHeap exampleHeap exampleSubjectRefs).read
        (splitAbove exampleHeap exampleSubjectRefs).barsRef =
      exampleHeap.read exampleSubjectRefs.barsRef :=
  ⟨by decide, by decide, by decide,
    (c8_deep_copy exampleHeap exampleSubjectRefs (by decide) (by decide)
      (by decide)).1.1⟩

end Flot
